import Mathlib

/-!
Shallow embedding of `src/qiling/cc/intel.py`: Intel calling conventions
(amd64, ms64, macosx64, cdecl, stdcall) of the qiling emulation framework.

Pure functions (`getNumSlots`, `getRawParam`) become Lean functions; the
stateful return-address primitives (`setReturnAddress`, `unwind`) become
explicit state passing over an `ArchState` record (stack pointer plus a
word-addressed memory map).

Parts of the repository that `intel.py` relies on but that are outside the
provided sources (the execution context's `stack_push` / `stack_pop`, the
generic base accessor `QlCommonBaseCC.getRawParam`, and `make_arg_list`)
are modelled from the specification and marked as such.
-/

/-- The x86 register identifiers imported from `unicorn.x86_const` in the
source. Distinct constructors model the distinct unicorn constants. -/
inductive X86Reg
  | UC_X86_REG_EAX
  | UC_X86_REG_RAX
  | UC_X86_REG_RCX
  | UC_X86_REG_RDI
  | UC_X86_REG_RDX
  | UC_X86_REG_RSI
  | UC_X86_REG_R8
  | UC_X86_REG_R9
  | UC_X86_REG_R10
  deriving DecidableEq, Repr

open X86Reg

/-- Modelled from the spec: `make_arg_list` (from `qiling.cc`, not among the
provided sources) is the builder `build_arg_list(ids...)`, which "returns an
immutable ordered register list; empty list signals an all-stack
convention". -/
def make_arg_list (regs : List X86Reg) : List X86Reg := regs

/-- Modelled from the spec: the execution-context collaborator bound to a
convention — a current-stack-pointer register and a raw memory accessor
(§6).  `sp` is the stack-pointer register; `mem` maps an address to the
machine word stored there. -/
structure ArchState where
  sp : Int
  mem : Int → Nat

/-- Modelled from the spec: `stack_push(value)` of the execution context
(not among the provided sources): "decrements the stack-pointer register by
one word size, writes `addr` at the new top of stack" (§4.2).  `asize` is
the stack slot size in bytes. -/
def stack_push (asize : Nat) (st : ArchState) (value : Nat) : ArchState :=
  { sp := st.sp - asize
    mem := fun a => if a = st.sp - asize then value else st.mem a }

/-- Modelled from the spec: `stack_pop()` of the execution context (not
among the provided sources): "reads the return address at current stack
top, increments SP by one word size, returns the address" (§4.2). -/
def stack_pop (asize : Nat) (st : ArchState) : Nat × ArchState :=
  (st.mem st.sp, { st with sp := st.sp + asize })

/-- `QlIntelBaseCC.setReturnAddress`: `self.arch.stack_push(addr)`. -/
def QlIntelBaseCC.setReturnAddress (asize : Nat) (st : ArchState) (addr : Nat) :
    ArchState :=
  stack_push asize st addr

/-- `QlIntelBaseCC.unwind`: "no cleanup; just pop out the return address",
`return self.arch.stack_pop()`.  The `nslots` argument is ignored. -/
def QlIntelBaseCC.unwind (asize : Nat) (st : ArchState) (_nslots : Nat) :
    Nat × ArchState :=
  stack_pop asize st

/-- `QlIntel64.getNumSlots(argbits)`: `max(argbits, 64) // 64`. -/
def QlIntel64.getNumSlots (argbits : Nat) : Nat :=
  max argbits 64 / 64

/-- `QlIntel32.getNumSlots(argbits)`: `max(argbits, 32) // 32`. -/
def QlIntel32.getNumSlots (argbits : Nat) : Nat :=
  max argbits 32 / 32

/-- Modelled from the spec: the property of the inherited base accessor
`QlCommonBaseCC.getRawParam` (not among the provided sources) that its
default-width call (Python `argbits = 0`) reads the architecture's native
width — on a 32-bit convention, "the 32-bit base accessor" (§4.4). -/
def baseDefaultIsNative (base : Nat → Nat → Nat) : Prop :=
  ∀ s, base s 0 = base s 32

/-- `QlIntel32.getRawParam(slot, nbits)`, parametrized over the inherited
base accessor `base` (Python `super().getRawParam`; a second argument of 0
is its default).  If `nbits == 64`, reads `lo` at `slot` and `hi` at
`slot + 1` with the base accessor's default width and combines them as
`(hi << 32) | lo`; otherwise delegates to `base slot nbits`. -/
def QlIntel32.getRawParam (base : Nat → Nat → Nat) (slot : Nat) (nbits : Nat) :
    Nat :=
  if nbits = 64 then
    let lo := base slot 0
    let hi := base (slot + 1) 0
    (hi <<< 32) ||| lo
  else
    base slot nbits

/-- A concrete calling convention: stack slot size in bytes (`_asize`,
wordsize / 8), ordered argument-register list (`_argregs`), shadow-space
size in slots (`_shadow`), and the `unwind` implementation the class
resolves to. -/
structure CC where
  asize : Nat
  argregs : List X86Reg
  shadow : Nat
  unwindFn : ArchState → Nat → Nat × ArchState

/-- `stdcall.unwind`: calls the base `unwind`, then advances the stack
pointer by `nslots * self._asize` (with `_asize = 4` on the 4-byte-word
x86-32 architecture), and returns the popped return address. -/
def stdcallUnwind (st : ArchState) (nslots : Nat) : Nat × ArchState :=
  let r := QlIntelBaseCC.unwind 4 st nslots
  (r.1, { r.2 with sp := r.2.sp + nslots * 4 })

/-- `class amd64(QlIntel64)`: POSIX x86-64; six argument registers; the
base `unwind` is inherited unmodified. -/
def amd64 : CC :=
  { asize := 8
    argregs := make_arg_list [UC_X86_REG_RDI, UC_X86_REG_RSI, UC_X86_REG_RDX,
      UC_X86_REG_R10, UC_X86_REG_R8, UC_X86_REG_R9]
    shadow := 0
    unwindFn := QlIntelBaseCC.unwind 8 }

/-- `class ms64(QlIntel64)`: Windows/UEFI x86-64; four argument registers,
shadow space of 4 slots; the base `unwind` is inherited unmodified. -/
def ms64 : CC :=
  { asize := 8
    argregs := make_arg_list [UC_X86_REG_RCX, UC_X86_REG_RDX, UC_X86_REG_R8,
      UC_X86_REG_R9]
    shadow := 4
    unwindFn := QlIntelBaseCC.unwind 8 }

/-- `class macosx64(QlIntel64)`: Mac OS x86-64; six argument registers; the
base `unwind` is inherited unmodified. -/
def macosx64 : CC :=
  { asize := 8
    argregs := make_arg_list [UC_X86_REG_RDI, UC_X86_REG_RSI, UC_X86_REG_RDX,
      UC_X86_REG_RCX, UC_X86_REG_R8, UC_X86_REG_R9]
    shadow := 0
    unwindFn := QlIntelBaseCC.unwind 8 }

/-- `class cdecl(QlIntel32)`: x86-32, all arguments on the stack; the base
`unwind` is inherited unmodified. -/
def cdecl : CC :=
  { asize := 4
    argregs := make_arg_list []
    shadow := 0
    unwindFn := QlIntelBaseCC.unwind 4 }

/-- `class stdcall(QlIntel32)`: x86-32, all arguments on the stack; callee
cleans up via its overridden `unwind`. -/
def stdcall : CC :=
  { asize := 4
    argregs := make_arg_list []
    shadow := 0
    unwindFn := stdcallUnwind }

/-- C1: for every 32-bit convention and any slot `s`,
`get_raw(s, 64) = (get_raw(s+1, 32) <<< 32) ||| get_raw(s, 32)` — the low
32 bits are read at `s`, the high 32 bits at `s + 1` — and for any width
other than 64 `get_raw` delegates directly to the base accessor at that
width. -/
theorem c1_getRawParam64_split (base : Nat → Nat → Nat)
    (hbase : baseDefaultIsNative base) (s : Nat) :
    QlIntel32.getRawParam base s 64 =
      ((QlIntel32.getRawParam base (s + 1) 32) <<< 32) |||
        QlIntel32.getRawParam base s 32 ∧
    (∀ w, w ≠ 64 → QlIntel32.getRawParam base s w = base s w) := by
  constructor
  · simp [QlIntel32.getRawParam, hbase s, hbase (s + 1)]
  · intro w hw
    simp [QlIntel32.getRawParam, hw]

theorem c1_witness :
    QlIntel32.getRawParam (fun s _ => s + 11) 5 64 =
      ((QlIntel32.getRawParam (fun s _ => s + 11) 6 32) <<< 32) |||
        QlIntel32.getRawParam (fun s _ => s + 11) 5 32 :=
  (c1_getRawParam64_split (fun s _ => s + 11) (fun _ => rfl) 5).1

/-- C2: for every convention, `slots_needed(w) = max(w, wordsize) / wordsize`
(`max(w, 64) / 64` on 64-bit conventions, `max(w, 32) / 32` on 32-bit
conventions), always at least 1; any width `w ≤ 64` consumes exactly one
slot on a 64-bit convention. -/
theorem c2_getNumSlots_formula (w : Nat) :
    QlIntel64.getNumSlots w = max w 64 / 64 ∧
    QlIntel32.getNumSlots w = max w 32 / 32 ∧
    1 ≤ QlIntel64.getNumSlots w ∧
    1 ≤ QlIntel32.getNumSlots w ∧
    (w ≤ 64 → QlIntel64.getNumSlots w = 1) := by
  refine ⟨rfl, rfl, ?_, ?_, ?_⟩
  · exact Nat.le_div_iff_mul_le (by norm_num) |>.mpr
      (by simp [Nat.le_max_right w 64])
  · exact Nat.le_div_iff_mul_le (by norm_num) |>.mpr
      (by simp [Nat.le_max_right w 32])
  · intro hw
    simp [QlIntel64.getNumSlots, Nat.max_eq_right hw]

theorem c2_witness : QlIntel64.getNumSlots 40 = 1 :=
  (c2_getNumSlots_formula 40).2.2.2.2 (by decide)

/-- C3 counterexample: the claim says every width `w` with
`wordsize < w ≤ 2*wordsize` needs 2 slots, giving `w = 48` on a 32-bit
convention as an example; in the code `getNumSlots 48 = max(48,32)/32 = 1`,
not 2. -/
theorem c3_counterexample :
    32 < 48 ∧ 48 ≤ 2 * 32 ∧ QlIntel32.getNumSlots 48 = 1 ∧
      QlIntel32.getNumSlots 48 ≠ 2 := by
  decide

/-- C3 amended: for every convention, `slots_needed(w) = 1` whenever
`w ≤ wordsize` and also whenever `wordsize < w < 2*wordsize` (integer
division rounds down: for `w = 48` on a 32-bit convention the result is 1);
`slots_needed(w) = 2` whenever `2*wordsize ≤ w < 3*wordsize`, in particular
at `w = 2*wordsize`; `amd64.slots_needed(64) = 1` and
`cdecl.slots_needed(64) = 2`. -/
theorem c3_amended_getNumSlots (w : Nat) :
    (w ≤ 64 → QlIntel64.getNumSlots w = 1) ∧
    (64 < w → w < 2 * 64 → QlIntel64.getNumSlots w = 1) ∧
    (2 * 64 ≤ w → w < 3 * 64 → QlIntel64.getNumSlots w = 2) ∧
    (w ≤ 32 → QlIntel32.getNumSlots w = 1) ∧
    (32 < w → w < 2 * 32 → QlIntel32.getNumSlots w = 1) ∧
    (2 * 32 ≤ w → w < 3 * 32 → QlIntel32.getNumSlots w = 2) ∧
    QlIntel64.getNumSlots 64 = 1 ∧ QlIntel32.getNumSlots 64 = 2 := by
  unfold QlIntel64.getNumSlots QlIntel32.getNumSlots
  refine ⟨?_, ?_, ?_, ?_, ?_, ?_, by decide, by decide⟩ <;>
    · intros
      rw [Nat.max_def]
      split <;> omega

theorem c3_witness : QlIntel32.getNumSlots 48 = 1 :=
  (c3_amended_getNumSlots 48).2.2.2.2.1 (by decide) (by decide)

/-- C4: for every convention (amd64, ms64, macosx64, cdecl, and stdcall
with its overridden `unwind`) and every address `A`, `set_return_address(A)`
followed by `unwind(0)` returns `A`: the address pushed at call synthesis
is the address popped at call completion. -/
theorem c4_push_then_unwind_returns (st : ArchState) (A : Nat) :
    (amd64.unwindFn (QlIntelBaseCC.setReturnAddress amd64.asize st A) 0).1
      = A ∧
    (ms64.unwindFn (QlIntelBaseCC.setReturnAddress ms64.asize st A) 0).1
      = A ∧
    (macosx64.unwindFn
        (QlIntelBaseCC.setReturnAddress macosx64.asize st A) 0).1 = A ∧
    (cdecl.unwindFn (QlIntelBaseCC.setReturnAddress cdecl.asize st A) 0).1
      = A ∧
    (stdcall.unwindFn (QlIntelBaseCC.setReturnAddress stdcall.asize st A) 0).1
      = A := by
  refine ⟨?_, ?_, ?_, ?_, ?_⟩ <;>
    simp [amd64, ms64, macosx64, cdecl, stdcall, stdcallUnwind,
      QlIntelBaseCC.unwind, QlIntelBaseCC.setReturnAddress, stack_pop,
      stack_push]

/-- C5 counterexample: on a base convention with 4-byte words, starting
from `sp = 100`, `set_return_address(7)` then `unwind(0)` leaves
`sp = 100` — equal to, not one word size (4) higher than, its value before
`set_return_address`. -/
theorem c5_counterexample :
    (QlIntelBaseCC.unwind 4
        (QlIntelBaseCC.setReturnAddress 4 ⟨100, fun _ => 0⟩ 7) 0).2.sp = 100 ∧
    ¬ (QlIntelBaseCC.unwind 4
        (QlIntelBaseCC.setReturnAddress 4 ⟨100, fun _ => 0⟩ 7) 0).2.sp
        = 100 + 4 := by
  constructor
  · simp [QlIntelBaseCC.unwind, QlIntelBaseCC.setReturnAddress, stack_pop,
      stack_push]
  · simp [QlIntelBaseCC.unwind, QlIntelBaseCC.setReturnAddress, stack_pop,
      stack_push]

/-- C5 amended: for every base (caller-cleanup) convention, after
`set_return_address(A)` followed by `unwind(0)` the stack-pointer register
ends exactly equal to its value immediately before `set_return_address`
was called — equivalently, exactly one word size higher than its value
immediately after `set_return_address`. -/
theorem c5_amended_sp_balance (asize : Nat) (st : ArchState) (A : Nat) :
    (QlIntelBaseCC.unwind asize
        (QlIntelBaseCC.setReturnAddress asize st A) 0).2.sp = st.sp ∧
    (QlIntelBaseCC.unwind asize
        (QlIntelBaseCC.setReturnAddress asize st A) 0).2.sp
      = (QlIntelBaseCC.setReturnAddress asize st A).sp + asize := by
  simp [QlIntelBaseCC.unwind, QlIntelBaseCC.setReturnAddress, stack_pop,
    stack_push]

/-- C6 counterexample: for stdcall on a 4-byte-word architecture, starting
from `sp = 100`, `set_return_address(7)` then `unwind(3)` returns 7 and
leaves `sp = 112` — `3*4 = 12` bytes higher than before
`set_return_address`, not the claimed `4 + 3*4 = 16` bytes higher. -/
theorem c6_counterexample :
    (stdcall.unwindFn
        (QlIntelBaseCC.setReturnAddress 4 ⟨100, fun _ => 0⟩ 7) 3).1 = 7 ∧
    (stdcall.unwindFn
        (QlIntelBaseCC.setReturnAddress 4 ⟨100, fun _ => 0⟩ 7) 3).2.sp = 112 ∧
    ¬ (stdcall.unwindFn
        (QlIntelBaseCC.setReturnAddress 4 ⟨100, fun _ => 0⟩ 7) 3).2.sp
        = 100 + 16 := by
  refine ⟨?_, ?_, ?_⟩ <;>
    simp [stdcall, stdcallUnwind, QlIntelBaseCC.unwind,
      QlIntelBaseCC.setReturnAddress, stack_pop, stack_push]

/-- C6 amended: for the stdcall convention on a 4-byte-word architecture
and every address `A`, `set_return_address(A)` followed by `unwind(3)`
returns `A` and leaves the stack-pointer register exactly `3*4 = 12` bytes
higher than its value immediately before `set_return_address` was called —
equivalently, `4 + 3*4 = 16` bytes higher than its value immediately after
`set_return_address`. -/
theorem c6_amended_stdcall_unwind3 (st : ArchState) (A : Nat) :
    (stdcall.unwindFn (QlIntelBaseCC.setReturnAddress 4 st A) 3).1 = A ∧
    (stdcall.unwindFn (QlIntelBaseCC.setReturnAddress 4 st A) 3).2.sp
      = st.sp + 3 * 4 ∧
    (stdcall.unwindFn (QlIntelBaseCC.setReturnAddress 4 st A) 3).2.sp
      = (QlIntelBaseCC.setReturnAddress 4 st A).sp + (4 + 3 * 4) := by
  refine ⟨?_, ?_, ?_⟩ <;>
    simp [stdcall, stdcallUnwind, QlIntelBaseCC.unwind,
      QlIntelBaseCC.setReturnAddress, stack_pop, stack_push]
  omega

/-- C7: `stdcall.unwind(nslots)` first pops the return address off the
stack and then advances the stack pointer by `nslots * 4` additional
bytes, returning the popped address; every other concrete convention
(amd64, ms64, macosx64, cdecl) uses the unmodified base `unwind`, which is
exactly `stack_pop` — it performs no further stack-pointer adjustment
regardless of `nslots`. -/
theorem c7_unwind_policy (st : ArchState) (n : Nat) :
    stdcall.unwindFn st n
      = ((stack_pop 4 st).1,
         { (stack_pop 4 st).2 with
             sp := (stack_pop 4 st).2.sp + n * stdcall.asize }) ∧
    amd64.unwindFn = QlIntelBaseCC.unwind amd64.asize ∧
    ms64.unwindFn = QlIntelBaseCC.unwind ms64.asize ∧
    macosx64.unwindFn = QlIntelBaseCC.unwind macosx64.asize ∧
    cdecl.unwindFn = QlIntelBaseCC.unwind cdecl.asize ∧
    QlIntelBaseCC.unwind 8 st n = stack_pop 8 st ∧
    QlIntelBaseCC.unwind 4 st n = stack_pop 4 st :=
  ⟨rfl, rfl, rfl, rfl, rfl, rfl, rfl⟩

/-- C8: the argument-register lists have exactly these lengths: ms64 has 4
registers, amd64 has 6, macosx64 has 6, and cdecl and stdcall each have 0
(all-stack conventions). -/
theorem c8_argreg_lengths :
    ms64.argregs.length = 4 ∧ amd64.argregs.length = 6 ∧
    macosx64.argregs.length = 6 ∧ cdecl.argregs.length = 0 ∧
    stdcall.argregs.length = 0 := by
  decide

/-- C9: the 4th argument register (index 3) of macosx64 differs from the
4th argument register of amd64. -/
theorem c9_fourth_argreg_differs :
    macosx64.argregs.getD 3 UC_X86_REG_RAX
      ≠ amd64.argregs.getD 3 UC_X86_REG_RAX := by
  decide

/-- C10: the amd64 and macosx64 argument-register lists are identical at
every index except index 3: amd64 is (RDI, RSI, RDX, R10, R8, R9) and
macosx64 is (RDI, RSI, RDX, RCX, R8, R9). -/
theorem c10_argreg_tables :
    amd64.argregs = [UC_X86_REG_RDI, UC_X86_REG_RSI, UC_X86_REG_RDX,
      UC_X86_REG_R10, UC_X86_REG_R8, UC_X86_REG_R9] ∧
    macosx64.argregs = [UC_X86_REG_RDI, UC_X86_REG_RSI, UC_X86_REG_RDX,
      UC_X86_REG_RCX, UC_X86_REG_R8, UC_X86_REG_R9] ∧
    (∀ i, i ≠ 3 →
      amd64.argregs.getD i UC_X86_REG_RAX
        = macosx64.argregs.getD i UC_X86_REG_RAX) := by
  refine ⟨rfl, rfl, ?_⟩
  intro i hi
  match i with
  | 0 | 1 | 2 => rfl
  | 3 => exact absurd rfl hi
  | 4 | 5 => rfl
  | n + 6 => rfl

theorem c10_witness :
    amd64.argregs.getD 0 UC_X86_REG_RAX
      = macosx64.argregs.getD 0 UC_X86_REG_RAX :=
  c10_argreg_tables.2.2 0 (by decide)
